import Mathlib

/-!
Verification of the Gingerbread raster-to-footprint pipeline.

Shallow embedding of the core of `src/gingerbread`:
* `_sexpr.py` — the KiCAD s-expression builder and writer (`escape_string`,
  `Symbol.write`, `fp_poly`, `footprint`, ...);
* `trace.py` — thresholding (`_prepare_image`), contour grouping and hole
  subtraction (`_trace_result_to_polys`), coordinate mapping
  (`_trace_bitmap_to_polys` / `_generate_fp_poly`), footprint generation
  (`generate_footprint`);
* `_geometry.py` — the cubic Bézier flattener (`bezier_to_points`).

Python floats are idealized as exact rationals (`ℚ`) where only field
arithmetic occurs, and as real numbers (`ℝ`) where `math.sqrt` is involved.
-/

namespace Gingerbread

/-! ### S-expression data model (from `_sexpr.py`)

A Python `Symbol` is a token plus a list of attributes; an attribute is a
`Literal`, a nested `Symbol`, a `str`, a `float`, a `uuid.UUID`, or any other
scalar (in this pipeline: `int`).  `Symbol.__init__` drops attributes that
are `None`; the builders below therefore assemble `Option` lists and
`reduceOption` them. -/

inductive SAttr where
  | lit : String → SAttr
  | str : String → SAttr
  | num : ℚ → SAttr
  | uuidv : String → SAttr
  | int : ℤ → SAttr
  | sym : String → List SAttr → SAttr

/-- A `Symbol` (token plus attribute list); nested symbols appear in
attribute position as `SAttr.sym`. -/
abbrev Symbol := SAttr

def Symbol.token : Symbol → String
  | .sym t _ => t
  | _ => ""

def Symbol.attributes : Symbol → List SAttr
  | .sym _ a => a
  | _ => []

/-- Sequential concatenation of the strings written to the output stream. -/
def strConcat : List String → String
  | [] => ""
  | s :: rest => s ++ strConcat rest

/-- From `_sexpr.escape_string`: writes `"` then each character of `s`, then
`"`.  The per-character `match` statement inspects `s` (the whole string),
not `c`, exactly as in the source. -/
def escapeChar (s : String) (c : Char) : String :=
  if s = "\n" then "\\n"
  else if s = "\r" then "\\r"
  else if s = "\x7b" then "{brace}"
  else if s = "/" then "{slash}"
  else if s = "\\" then "{backlash}"
  else if s = "<" then "{lt}"
  else if s = ">" then "{gt}"
  else if s = ":" then "{colon}"
  else if s = "\"" then "{dblqoute}"
  else String.singleton c

def escape_string (s : String) : String :=
  "\"" ++ strConcat (s.data.map (escapeChar s)) ++ "\""

/-- The six digits after the decimal point of a `%0.6f`-style rendering:
the zero-padded base-10 digits of `n` (`n < 10^6` in every use). -/
def digit6 (n : ℕ) : String :=
  String.mk [Nat.digitChar (n / 100000 % 10), Nat.digitChar (n / 10000 % 10),
    Nat.digitChar (n / 1000 % 10), Nat.digitChar (n / 100 % 10),
    Nat.digitChar (n / 10 % 10), Nat.digitChar (n % 10)]

/-- From `Symbol.write`'s `case float(): out.write(f" {attr:0.6f}")` (without
the leading space, which the writer adds): fixed-point rendering with six
digits after a `.` separator.  The sign is taken from the value itself, so a
negative value whose magnitude rounds to zero renders as `-0.000000`.
Rounding of the binary double is idealized as exact rational rounding. -/
def fmtFloat (q : ℚ) : String :=
  (if q < 0 then "-" else "") ++
    Nat.repr ((round (|q| * 1000000)).toNat / 1000000) ++ "." ++
    digit6 ((round (|q| * 1000000)).toNat % 1000000)

/-- `tabbed` becomes `True` in `Symbol.write` exactly when some attribute is
a `Symbol` that itself has attributes. -/
def hasTabbed (attrs : List SAttr) : Bool :=
  attrs.any fun a =>
    match a with
    | .sym _ (_ :: _) => true
    | _ => false

def tabStr (depth : ℕ) : String :=
  strConcat (List.replicate depth "  ")

mutual

/-- From `Symbol.write` (only ever invoked on `sym` nodes; the writer's
attribute loop dispatches the other variants through `writeAttr`). -/
def writeSymbol (depth : ℕ) : Symbol → String
  | .sym token attrs =>
    let tab := tabStr depth
    let head := if depth ≠ 0 then "\n" ++ tab else ""
    if attrs.isEmpty then head ++ token
    else
      head ++ "(" ++ token ++ writeAttrs depth attrs ++
        (if hasTabbed attrs then "\n" ++ tab ++ ")" else ")")
  | _ => ""

def writeAttrs (depth : ℕ) : List SAttr → String
  | [] => ""
  | a :: rest => writeAttr depth a ++ writeAttrs depth rest

def writeAttr (depth : ℕ) : SAttr → String
  | .lit v => v
  | .sym token [] => " " ++ writeSymbol 0 (.sym token [])
  | .sym token (a :: rest) => writeSymbol (depth + 1) (.sym token (a :: rest))
  | .str s => " " ++ escape_string s
  | .num q => " " ++ fmtFloat q
  | .uuidv u => " " ++ escape_string u
  | .int n => " " ++ toString n

end

/-! ### S-expression builders used by the trace pipeline (from `_sexpr.py`) -/

/-- From `_sexpr._opt` restricted to boolean values: `False`/`None` give
`None` (dropped by `Symbol.__init__`), `True` gives a bare `S(name)`. -/
def optS (name : String) (val : Bool) : Option SAttr :=
  if val then some (.sym name []) else none

/-- From `_sexpr._layer_or_str` applied to a plain string layer name. -/
def layerS (v : String) : Symbol := .sym "layer" [.str v]

/-- From `_sexpr.width`; the trace pipeline passes the Python `int` `0`,
which `Symbol.write` renders through its generic branch. -/
def widthS (w : SAttr) : Symbol := .sym "width" [w]

/-- From `_sexpr.fill`. -/
def fillS (fill : Bool) : Symbol :=
  .sym "fill" [.sym (if fill then "solid" else "none") []]

/-- From `_sexpr.xy`. -/
def xyS (x y : ℚ) : Symbol := .sym "xy" [.num x, .num y]

/-- From `_sexpr.pts` applied to coordinate pairs: `None` when the list is
empty, otherwise an `S("pts", ...)` of `xy` records. -/
def ptsS (ps : List (ℚ × ℚ)) : Option Symbol :=
  if ps.isEmpty then none else some (.sym "pts" (ps.map fun p => xyS p.1 p.2))

/-- From `_sexpr.tstamp` with the (otherwise random) UUID made explicit. -/
def tstampS (val : String) : Symbol := .sym "tstamp" [.uuidv val]

/-- From `_sexpr.tedit` with the UUID made explicit. -/
def teditS (val : String) : Symbol := .sym "tedit" [.uuidv val]

/-- From `_sexpr.at` on a coordinate pair (the `angle` defaults to `None`
and is dropped). -/
def atS (x y : ℚ) : Symbol := .sym "at" [.num x, .num y]

/-- From `_sexpr.attr` with all defaults, as used by `_sexpr.footprint`. -/
def attrS : Symbol :=
  .sym "attr"
    [.sym "board_only" [], .sym "exclude_from_pos_files" [],
      .sym "exclude_from_bom" []]

/-- From `_sexpr.fp_poly`.  Attribute order follows the source: `pts`,
`layer`, `width`, `fill`, optional `locked`, `tstamp`; `None` attributes are
dropped. -/
def fp_poly (pts : List (ℚ × ℚ)) (layer : String) (width : SAttr)
    (fill : Bool) (locked : Bool) (uuid : String) : Symbol :=
  .sym "fp_poly"
    (([(ptsS pts), some (layerS layer), some (widthS width),
        some (fillS fill), optS "locked" locked,
        some (tstampS uuid)].reduceOption))

/-- From `_sexpr.footprint`: `S("footprint", library_link, _opt("locked",
locked), layer, at(*at), attr, tstamp(), tedit(), *args)`. -/
def footprint (library_link : String) (args : List Symbol) (locked : Bool)
    (layer : String) (pos : ℚ × ℚ) (ts te : String) : Symbol :=
  .sym "footprint"
    (([some (.str library_link), optS "locked" locked,
        some (layerS layer), some (atS pos.1 pos.2), some attrS,
        some (tstampS ts), some (teditS te)].reduceOption) ++ args)

/-! ### Thresholding (from `trace._prepare_image`) -/

/-- The per-cell value of `np.where(image_array > threshold, invert,
not invert)`. -/
def prepareCell (sample threshold : ℤ) (invert : Bool) : Bool :=
  if sample > threshold then invert else !invert

/-- Modelled from the spec: the C bitmap-packing helper
`potracecffi_pack_bitmap_data` (in `potracecffi.c`, whose source is not
available here) packs each cell of the thresholded array as the tracer
bitmap's "bit/byte per pixel foreground flag" (spec §6), so a `true` cell is
the value the tracer treats as filled. -/
def tracerTreatsFilled (cell : Bool) : Bool := cell

/-! ### Contour assembly (from `trace._trace_result_to_polys`)

The polygon type is abstract (`α`); a contour is a `hole` flag (from
`path.sign == ord("-")`) paired with its flattened polygon. -/

inductive PyErr where
  | indexError
  | malformedContourSequence
  deriving DecidableEq

/-- `polys_and_holes[-1].append(poly)`: attach a hole to the last group. -/
def appendHoleToLast {α : Type} : List (α × List α) → α → List (α × List α)
  | [], _ => []
  | [(p, hs)], h => [(p, hs ++ [h])]
  | g :: rest, h => g :: appendHoleToLast rest h

/-- The first loop of `_trace_result_to_polys`: build `polys_and_holes`.
A positive contour appends a fresh `[poly]` group; a hole is appended to
`polys_and_holes[-1]`, which raises Python's `IndexError` when the list is
empty.  (`PyErr.malformedContourSequence` is modelled from spec §7 and is
never produced by the code.) -/
def groupContours {α : Type} :
    List (α × List α) → List (Bool × α) → Except PyErr (List (α × List α))
  | acc, [] => .ok acc
  | acc, (hole, poly) :: rest =>
    if hole then
      match acc with
      | [] => .error .indexError
      | _ => groupContours (appendHoleToLast acc poly) rest
    else groupContours (acc ++ [(poly, [])]) rest

/-- The second loop of `_trace_result_to_polys`: groups without holes pass
through; otherwise `gdstk.boolean(poly, holes, "not")` (abstracted as the
injected `subtract`) runs once with all holes and its results are extended
onto the output directly. -/
def resolveHoles {α : Type} (subtract : α → List α → List α)
    (groups : List (α × List α)) : List α :=
  groups.foldl
    (fun polys g =>
      if g.2.isEmpty then polys ++ [g.1] else polys ++ subtract g.1 g.2) []

/-- `_trace_result_to_polys` (offset application to points elided; the
contours arrive already flattened and offset). -/
def trace_result_to_polys {α : Type} (subtract : α → List α → List α)
    (contours : List (Bool × α)) : Except PyErr (List α) :=
  (groupContours [] contours).map (resolveHoles subtract)

/-- Modelled from the spec (§4.3): "repeatedly take the first two fragments
and invoke `PolygonBoolean.union(a, b)`; if the union engine returns a
single polygon, replace the pair with it and continue; if it still returns
multiple disjoint polygons, stop merging".  No such re-merge exists in the
code; this definition exists to compare the spec's described behaviour with
`resolveHoles`. -/
def mergeFragments {α : Type} (union : α → α → List α) : List α → List α
  | a :: b :: rest =>
    match union a b with
    | [c] => mergeFragments union (c :: rest)
    | _ => a :: b :: rest
  | l => l
termination_by l => l.length

/-- Modelled from the spec (§4.3): like `resolveHoles`, but fragmented
subtraction results are re-merged with `mergeFragments` before being
finalized. -/
def specResolveHoles {α : Type} (subtract : α → List α → List α)
    (union : α → α → List α) (groups : List (α × List α)) : List α :=
  groups.foldl
    (fun polys g =>
      if g.2.isEmpty then polys ++ [g.1]
      else
        let results := subtract g.1 g.2
        if results.length ≤ 1 then polys ++ results
        else polys ++ mergeFragments union results) []

/-! ### Coordinate mapping (from `trace._trace_bitmap_to_polys` and
`trace._generate_fp_poly`) -/

/-- The `offset` computed in `_trace_bitmap_to_polys`: `(-bitmap.shape[1] /
2, -bitmap.shape[0] / 2)` when centering (shape is `(height, width)`),
otherwise `(0, 0)`. -/
def traceOffset (center : Bool) (width height : ℚ) : ℚ × ℚ :=
  if center then (-width / 2, -height / 2) else (0, 0)

/-- The point transformation in `_trace_result_to_polys`:
`(p[0] + offset[0], p[1] + offset[1])` over each point. -/
def offsetPts (offset : ℚ × ℚ) (pts : List (ℚ × ℚ)) : List (ℚ × ℚ) :=
  pts.map fun p => (p.1 + offset.1, p.2 + offset.2)

/-- The scaling in `_generate_fp_poly`: `(pt[0] * dpmm, pt[1] * dpmm)`. -/
def scalePts (dpmm : ℚ) (pts : List (ℚ × ℚ)) : List (ℚ × ℚ) :=
  pts.map fun p => (p.1 * dpmm, p.2 * dpmm)

/-- From `trace._generate_fp_poly`: scale the polygon's points by `dpmm`
and build `s.fp_poly(pts=pts, layer=layer, width=0, fill=True)` (the
`width` is the Python integer `0`; `locked` keeps its `False` default).
The record's fresh `tstamp` UUID is made an explicit argument. -/
def generate_fp_poly (poly : List (ℚ × ℚ)) (layer : String) (dpmm : ℚ)
    (uuid : String) : Symbol :=
  fp_poly (scalePts dpmm poly) layer (.int 0) true false uuid

/-- From `trace.generate_footprint`: `dpmm = 25.4 / dpi`, then
`s.footprint("Graphics", at=position, *fp_polys, layer=layer)`.  The
otherwise-random UUIDs are supplied explicitly: `uuids i` for the `i`-th
polygon record, `ts`/`te` for the footprint's `tstamp`/`tedit`. -/
def generate_footprint (polys : List (List (ℚ × ℚ))) (dpi : ℚ)
    (layer : String) (position : ℚ × ℚ) (uuids : ℕ → String)
    (ts te : String) : Symbol :=
  footprint "Graphics"
    (polys.enum.map fun pi => generate_fp_poly pi.2 layer (127 / 5 / dpi) (uuids pi.1))
    false layer position ts te

/-- The tokens of the symbol-valued attributes of a record, in order. -/
def Symbol.attrTokens (s : Symbol) : List String :=
  s.attributes.filterMap fun a =>
    match a with
    | .sym t _ => some t
    | _ => none

def isFpPolyRecord : SAttr → Option Symbol
  | .sym t attrs => if t = "fp_poly" then some (.sym t attrs) else none
  | _ => none

/-- The `fp_poly` child records of a footprint record, in order. -/
def polyRecords (s : Symbol) : List Symbol :=
  s.attributes.filterMap isFpPolyRecord

/-! ### Cubic Bézier flattening (from `_geometry.bezier_to_points`)

`math.sqrt` forces the idealization into `ℝ` here. -/

/-- The Bernstein-basis evaluation inside `bezier_to_points`' loop. -/
noncomputable def bezierPoint (p1 p2 p3 p4 : ℝ × ℝ) (t : ℝ) : ℝ × ℝ :=
  (p1.1 * (1 - t) ^ 3 + 3 * p2.1 * (1 - t) ^ 2 * t +
      3 * p3.1 * (1 - t) * t ^ 2 + p4.1 * t ^ 3,
    p1.2 * (1 - t) ^ 3 + 3 * p2.2 * (1 - t) ^ 2 * t +
      3 * p3.2 * (1 - t) * t ^ 2 + p4.2 * t ^ 3)

/-- `dd = 6 * math.sqrt(max(dd0, dd1))` with `dd0`, `dd1` the squared
second-derivative magnitudes at the curve's ends. -/
noncomputable def ddOf (p1 p2 p3 p4 : ℝ × ℝ) : ℝ :=
  6 * Real.sqrt (max
    ((p1.1 - 2 * p2.1 + p3.1) ^ 2 + (p1.2 - 2 * p2.2 + p3.2) ^ 2)
    ((p2.1 - 2 * p3.1 + p4.1) ^ 2 + (p2.2 - 2 * p3.2 + p4.2) ^ 2))

/-- `np.arange(0, 1, step)`: the values `i * step` for
`i < ⌈(1 - 0) / step⌉`, empty for a non-positive step. -/
noncomputable def arange01 (step : ℝ) : List ℝ :=
  if 0 < step then (List.range ⌈1 / step⌉₊).map (fun i => i * step) else []

/-- From `_geometry.bezier_to_points`: `e2 = 8 * delta / dd if 8 * delta <=
dd else 1`, `interval = sqrt(e2)`, then the Bernstein evaluations over
`np.arange(0, 1, interval)` followed by the literal `p4`. -/
noncomputable def bezier_to_points (p1 p2 p3 p4 : ℝ × ℝ) (delta : ℝ) :
    List (ℝ × ℝ) :=
  let dd := ddOf p1 p2 p3 p4
  let e2 := if 8 * delta ≤ dd then 8 * delta / dd else 1
  let interval := Real.sqrt e2
  (arange01 interval).map (bezierPoint p1 p2 p3 p4) ++ [p4]

/-! ### Theorems -/

/-- C7: For every cubic Bézier `(p1, p2, p3, p4)` and every `delta`, the
last point emitted by `bezier_to_points` is exactly the literal input end
point `p4` (proved for all `delta`, so in particular for `delta > 0`). -/
theorem bezier_last_point_exact (p1 p2 p3 p4 : ℝ × ℝ) (delta : ℝ) :
    (bezier_to_points p1 p2 p3 p4 delta).getLast? = some p4 := by
  unfold bezier_to_points
  exact List.getLast?_concat _

/-- C8: mapping the pixel-space polygon `[(0,0),(W,0),(W,H),(0,H)]` through
the trace pipeline's coordinate mapping with `dpmm = k` and `center = false`
yields exactly `[(0,0),(Wk,0),(Wk,Hk),(0,Hk)]`. -/
theorem coordinate_roundtrip_scaling (W H k : ℚ) :
    scalePts k (offsetPts (traceOffset false W H)
        [(0, 0), (W, 0), (W, H), (0, H)]) =
      [(0, 0), (W * k, 0), (W * k, H * k), (0, H * k)] := by
  simp [scalePts, offsetPts, traceOffset]

/-- C1 (counterexample): at sample 200, threshold 127, `invert = false`,
the expression `(sample > threshold) == invert` is false, yet the cell is
background, refuting "foreground iff `(sample > threshold) == invert` is
false". -/
theorem prepare_polarity_counterexample :
    ¬ (tracerTreatsFilled (prepareCell 200 127 false) = true ↔
        ¬ (decide ((200 : ℤ) > 127) = false)) := by
  decide

/-- C1 (amended): a cell is foreground (the value the tracer treats as
filled) iff `(sample > threshold) == invert` is **true** — equivalently,
foreground exactly when the sample is at or under the threshold, unless
inverted. -/
theorem prepare_polarity (sample threshold : ℤ) (invert : Bool) :
    (tracerTreatsFilled (prepareCell sample threshold invert) = true ↔
        decide (sample > threshold) = invert) ∧
      (tracerTreatsFilled (prepareCell sample threshold invert) = true ↔
        (sample ≤ threshold ↔ invert = false)) := by
  unfold tracerTreatsFilled prepareCell
  by_cases h : sample > threshold <;> cases invert <;> simp [h, le_of_not_lt]

/-- C3 (counterexample): a lone `Negative` contour makes
`_trace_result_to_polys` fail with Python's untyped `IndexError` (from
`polys_and_holes[-1]` on an empty list), not with a typed
`MalformedContourSequence`. -/
theorem hole_without_body_counterexample :
    trace_result_to_polys (fun (p : List (ℚ × ℚ)) _ => [p])
        [(true, [(0, 0), (1, 0), (0, 1)])] = .error .indexError ∧
      (Except.error PyErr.indexError :
          Except PyErr (List (List (ℚ × ℚ)))) ≠
        .error .malformedContourSequence := by
  refine ⟨rfl, by simp⟩

/-- C3 (amended): if a `Negative` contour arrives while no `Positive`
contour has yet been consumed, `_trace_result_to_polys` raises Python's
untyped `IndexError`; the hole is not silently dropped, but no typed
`MalformedContourSequence` error exists in the code. -/
theorem hole_without_body_raises {α : Type} (subtract : α → List α → List α)
    (poly : α) (rest : List (Bool × α)) :
    trace_result_to_polys subtract ((true, poly) :: rest) =
      .error .indexError := by
  simp [trace_result_to_polys, groupContours, Except.map]

theorem resolveHoles_foldl_general {α : Type}
    (subtract : α → List α → List α) (groups : List (α × List α))
    (init : List α) :
    groups.foldl
        (fun polys g =>
          if g.2.isEmpty then polys ++ [g.1] else polys ++ subtract g.1 g.2)
        init =
      init ++
        groups.flatMap
          (fun g => if g.2.isEmpty then [g.1] else subtract g.1 g.2) := by
  induction groups generalizing init with
  | nil => simp
  | cons g rest ih =>
    by_cases h : g.2.isEmpty <;> simp [h, ih, List.append_assoc]

/-- C4 (counterexample): with a subtraction oracle that fragments the body
into two polygons and a union oracle that would merge them back into one,
`_trace_result_to_polys` finalizes both fragments directly, whereas the
spec's described re-merge loop (`specResolveHoles`) would emit the single
merged polygon — no union re-merge happens in the code. -/
theorem resolveHoles_no_remerge_counterexample :
    resolveHoles (fun (_ : ℕ) _ => [10, 11]) [(0, [1])] = [10, 11] ∧
      specResolveHoles (fun (_ : ℕ) _ => [10, 11]) (fun _ _ => [99])
          [(0, [1])] = [99] ∧
      ([10, 11] : List ℕ) ≠ [99] := by
  refine ⟨rfl, ?_, by decide⟩
  simp [specResolveHoles, mergeFragments]

/-- C4 (amended): whenever subtracting holes from a body yields one or more
polygons, `_trace_result_to_polys` appends all of them directly as
independent output polygons; no re-merge via the boolean union operation is
ever attempted (the union engine is not consulted at all). -/
theorem resolveHoles_no_remerge {α : Type}
    (subtract : α → List α → List α) (groups : List (α × List α)) :
    resolveHoles subtract groups =
      groups.flatMap
        (fun g => if g.2.isEmpty then [g.1] else subtract g.1 g.2) := by
  unfold resolveHoles
  simpa using resolveHoles_foldl_general subtract groups []

/-- C2 (counterexample): for the degenerate Bézier with all four control
points `(0,0)` and `delta = 1`, the bound `dd` is zero, yet
`bezier_to_points` emits two points (the `t = 0` evaluation and `p4`), not
just `p4`. -/
theorem bezier_dd_zero_counterexample :
    ddOf (0, 0) (0, 0) (0, 0) (0, 0) = 0 ∧
      bezier_to_points (0, 0) (0, 0) (0, 0) (0, 0) 1 ≠ [((0 : ℝ), (0 : ℝ))] := by
  have hdd : ddOf (0, 0) (0, 0) (0, 0) (0, 0) = 0 := by
    norm_num [ddOf]
  refine ⟨hdd, ?_⟩
  have harange : arange01 1 = [0] := by
    unfold arange01
    rw [if_pos one_pos]
    norm_num [List.range_succ]
  simp only [bezier_to_points]
  rw [hdd]
  norm_num [harange]

/-- C2 (amended): for every cubic Bézier with `delta > 0` whose
second-derivative bound `dd` is zero, `bezier_to_points` emits exactly two
points: the Bernstein evaluation at `t = 0` (which equals `p1`) followed by
the literal end point `p4`. -/
theorem bezier_dd_zero_two_points (p1 p2 p3 p4 : ℝ × ℝ) (delta : ℝ)
    (hδ : 0 < delta) (hdd : ddOf p1 p2 p3 p4 = 0) :
    bezier_to_points p1 p2 p3 p4 delta = [p1, p4] := by
  have h8 : ¬ (8 * delta ≤ ddOf p1 p2 p3 p4) := by
    rw [hdd]
    nlinarith
  have harange : arange01 (Real.sqrt 1) = [0] := by
    unfold arange01
    rw [Real.sqrt_one, if_pos one_pos]
    norm_num [List.range_succ]
  simp only [bezier_to_points]
  rw [if_neg h8, harange]
  have hpt : bezierPoint p1 p2 p3 p4 0 = p1 := by
    unfold bezierPoint
    norm_num
  simp [hpt]

/-- C2 (witness): the amended statement at the all-zero degenerate curve
with `delta = 1`. -/
theorem bezier_dd_zero_two_points_witness :
    bezier_to_points (0, 0) (0, 0) (0, 0) (0, 0) 1 =
      [((0 : ℝ), (0 : ℝ)), (0, 0)] :=
  bezier_dd_zero_two_points (0, 0) (0, 0) (0, 0) (0, 0) 1 one_pos
    (by simp [ddOf])

/-- C5 (counterexample): a concrete serialized `fp_poly` record lists its
symbol-valued fields in the order `pts`, `layer`, `width`, `fill`,
`tstamp` — `width` precedes `fill`, not the other way around. -/
theorem fp_poly_field_order_counterexample :
    (fp_poly [(0, 0), (1, 0), (0, 1)] "F.SilkS" (.int 0) true false
          "u").attrTokens = ["pts", "layer", "width", "fill", "tstamp"] ∧
      ["pts", "layer", "width", "fill", "tstamp"] ≠
        ["pts", "layer", "fill", "width", "tstamp"] := by
  exact ⟨rfl, by decide⟩

/-- C5 (amended): every `fp_poly` record produced by the trace pipeline
(non-empty point list, `fill=True`, `locked=False`) lists its fields in
exactly the order: the `pts` list, the `layer` record, `(width 0)`,
`(fill solid)`, and the `tstamp` record. -/
theorem fp_poly_field_order (pts : List (ℚ × ℚ)) (layer : String)
    (w : SAttr) (uuid : String) (h : pts ≠ []) :
    (fp_poly pts layer w true false uuid).attrTokens =
      ["pts", "layer", "width", "fill", "tstamp"] := by
  simp [fp_poly, Symbol.attrTokens, Symbol.attributes, ptsS, optS, h,
    List.reduceOption]
  rfl

/-- C5 (witness): the amended field order at a concrete record. -/
theorem fp_poly_field_order_witness :
    (fp_poly [(0, 0)] "F.Cu" (.int 0) true false "t").attrTokens =
      ["pts", "layer", "width", "fill", "tstamp"] :=
  fp_poly_field_order [(0, 0)] "F.Cu" (.int 0) "t" (by decide)

theorem strConcat_singleton (l : List Char) :
    strConcat (l.map String.singleton) = String.mk l := by
  induction l with
  | nil => rfl
  | cons a rest ih => simp only [List.map_cons, strConcat, ih]; rfl

theorem escapeChar_of_length_ne_one (s : String) (h : s.length ≠ 1)
    (c : Char) : escapeChar s c = String.singleton c := by
  unfold escapeChar
  split_ifs with h1 h2 h3 h4 h5 h6 h7 h8 h9 <;>
    first
    | rfl
    | (subst_vars; exact absurd (by decide) h)

/-- C10: for every string `s` whose length is not 1, `escape_string`
writes `"` followed by every character of `s` verbatim followed by `"`:
the per-character `match` inspects the whole string `s`, so no character of
a multi-character string is ever replaced by an escape sequence. -/
theorem escape_string_multichar (s : String) (h : s.length ≠ 1) :
    escape_string s = "\"" ++ s ++ "\"" := by
  unfold escape_string
  rw [List.map_congr_left (fun c _ => escapeChar_of_length_ne_one s h c),
    strConcat_singleton]

/-- C10 (witness): a multi-character string containing `.` and uppercase
characters passes through unescaped. -/
theorem escape_string_multichar_witness :
    escape_string "F.SilkS:<>\\" = "\"F.SilkS:<>\\\"" :=
  escape_string_multichar "F.SilkS:<>\\" (by decide)

theorem digitChar_isDigit (n : ℕ) (h : n < 10) :
    (Nat.digitChar n).isDigit = true := by
  interval_cases n <;> decide

theorem digitChar_mod10_isDigit (n : ℕ) :
    (Nat.digitChar (n % 10)).isDigit = true :=
  digitChar_isDigit _ (Nat.mod_lt _ (by norm_num))

theorem fmtFloat_neg_tiny : fmtFloat (-(1 / 10000000) : ℚ) = "-0.000000" := by
  have h0 : (round (|(-(1 / 10000000) : ℚ)| * 1000000)).toNat = 0 := by
    norm_num [abs_of_neg, round_eq]
  unfold fmtFloat
  rw [h0]
  norm_num
  decide

/-- C6 (counterexample): the serializer emits the string `-0.000000` for a
negative coordinate whose magnitude rounds to zero — negative zero is not
normalized. -/
theorem writer_emits_negative_zero :
    writeSymbol 0 (.sym "xy" [.num (-(1 / 10000000)), .num 0]) =
      "(xy -0.000000 0.000000)" := by
  have h1 : fmtFloat (-(10000000⁻¹) : ℚ) = "-0.000000" := by
    rw [show (-(10000000⁻¹) : ℚ) = -(1 / 10000000) by norm_num]
    exact fmtFloat_neg_tiny
  have h2 : fmtFloat 0 = "0.000000" := by
    unfold fmtFloat
    norm_num
    decide
  simp [writeSymbol, writeAttrs, writeAttr, hasTabbed, h1, h2]

/-- C6 (amended): every float rendered by the serializer uses `.` as the
decimal separator with exactly six digits after the point (no locale
dependence, no scientific notation), **but** negative zero is not
normalized: a negative value that rounds to zero is emitted as
`-0.000000`. -/
theorem fmtFloat_fixed_point_format :
    (∀ q : ℚ, ∃ ip fp : ℕ,
        fmtFloat q =
            (if q < 0 then "-" else "") ++ Nat.repr ip ++ "." ++ digit6 fp ∧
          (digit6 fp).length = 6 ∧
          (digit6 fp).data.all Char.isDigit = true) ∧
      fmtFloat (-(1 / 10000000) : ℚ) = "-0.000000" := by
  constructor
  · intro q
    refine ⟨(round (|q| * 1000000)).toNat / 1000000,
      (round (|q| * 1000000)).toNat % 1000000, rfl, rfl, ?_⟩
    simp [digit6, List.all_cons, digitChar_mod10_isDigit]
  · exact fmtFloat_neg_tiny

theorem polyRecords_generate (polys : List (List (ℚ × ℚ))) (dpi : ℚ)
    (layer : String) (position : ℚ × ℚ) (uuids : ℕ → String)
    (ts te : String) :
    polyRecords (generate_footprint polys dpi layer position uuids ts te) =
      polys.enum.map
        (fun pi => generate_fp_poly pi.2 layer (127 / 5 / dpi) (uuids pi.1)) := by
  unfold generate_footprint footprint polyRecords
  simp only [Symbol.attributes]
  rw [show List.reduceOption [some (SAttr.str "Graphics"), optS "locked" false,
      some (layerS layer), some (atS position.1 position.2), some attrS,
      some (tstampS ts), some (teditS te)] =
    [SAttr.str "Graphics", layerS layer, atS position.1 position.2, attrS,
      tstampS ts, teditS te] from rfl]
  rw [List.filterMap_append]
  rw [show List.filterMap isFpPolyRecord [SAttr.str "Graphics", layerS layer,
      atS position.1 position.2, attrS, tstampS ts, teditS te] = [] from rfl]
  rw [List.nil_append, List.filterMap_map]
  rw [List.filterMap_eq_map_iff_forall_eq_some]
  intro pi _
  rfl

/-- C9: the per-vertex coordinates written into the `fp_poly` records of a
generated footprint are identical for any two placement positions; the
placement appears only in the footprint-level `(at x y)` record (attribute
index 2 of the footprint record, after the name and layer). -/
theorem footprint_placement_only_at_record (polys : List (List (ℚ × ℚ)))
    (dpi : ℚ) (layer : String) (p p' : ℚ × ℚ) (uuids : ℕ → String)
    (ts te : String) :
    polyRecords (generate_footprint polys dpi layer p uuids ts te) =
        polyRecords (generate_footprint polys dpi layer p' uuids ts te) ∧
      (generate_footprint polys dpi layer p uuids ts te).attributes[2]? =
        some (atS p.1 p.2) := by
  constructor
  · rw [polyRecords_generate, polyRecords_generate]
  · unfold generate_footprint footprint
    simp only [Symbol.attributes]
    rfl

end Gingerbread